import Mathlib

/-!
Verification of the vector-index and embedding-cache subsystem of the
`contas-luz` repository (files `app/services/faiss_service.py` and
`app/services/embeddings_service.py`).

Floating-point vector components are modelled as rationals (`ℚ`): every claim
under study concerns control flow, counting, ordering and state bookkeeping,
none of which depends on rounding.  The FAISS library itself is external to
the repository; its documented flat-index behaviour (exact L2 k-NN returning
exactly `k` result columns, with label `-1` padding when fewer than `k`
vectors exist) is embedded as `searchFlat`.
-/

namespace ContasLuz

/-- An embedding vector (numpy float32 row, modelled over ℚ). -/
abbrev Vec := List ℚ

/-- `np.zeros(n, dtype=np.float32)`. -/
def zeros (n : Nat) : Vec := List.replicate n 0

/-- Squared Euclidean distance, the metric of `faiss.IndexFlatL2`. -/
def l2dist (q v : Vec) : ℚ := (List.zipWith (fun a b => (a - b) * (a - b)) q v).sum

/-- Python `dict` assignment `d[k] = v`: replace in place if the key is
present, otherwise append (insertion order is preserved, as in CPython). -/
def upsert {α β : Type} [BEq α] (k : α) (v : β) : List (α × β) → List (α × β)
  | [] => [(k, v)]
  | (k2, v2) :: rest => if k == k2 then (k, v) :: rest else (k2, v2) :: upsert k v rest

/-- A document payload stored in a slot mapping.  A Python object offers two
lookup surfaces probed by the filter code: `hasattr`/`getattr` (modelled by
`attrs`) and `in`/`[]` item access for dicts (modelled by `items`). -/
structure Doc where
  attrs : List (String × String)
  items : List (String × String)
deriving DecidableEq, Repr

/-- The index families constructed by `FaissService.criar_indice`.  An
`IndexIVFFlat` carries its training state: it is constructed untrained and
becomes trained only through an explicit `train` call — which this
repository never performs. -/
inductive IndexKind
  | flat
  | ivf (nlist nprobe : Nat) (trained : Bool)
  | hnsw (conns : Nat)
deriving DecidableEq, Repr

/-- A FAISS index object: its dimension `d` and its stored vectors
(`ntotal = vecs.length`). -/
structure FaissIndex where
  kind : IndexKind
  dim : Nat
  vecs : List Vec
deriving DecidableEq, Repr

/-- `index.ntotal`. -/
def FaissIndex.ntotal (ix : FaissIndex) : Nat := ix.vecs.length

/-- `index.is_trained`: `IndexFlatL2` and `IndexHNSWFlat` are born trained;
`IndexIVFFlat` requires a training phase first.  `add` and `search` on an
untrained index raise a FAISS runtime error. -/
def FaissIndex.is_trained (ix : FaissIndex) : Bool :=
  match ix.kind with
  | .flat => true
  | .ivf _ _ trained => trained
  | .hnsw _ => true

/-- Comparison of scored results by distance (second component). -/
def distLe (a b : Int × ℚ) : Prop := a.2 ≤ b.2

instance : DecidableRel distLe := fun a b => inferInstanceAs (Decidable (a.2 ≤ b.2))

instance : IsTotal (Int × ℚ) distLe := ⟨fun a b => le_total a.2 b.2⟩

instance : IsTrans (Int × ℚ) distLe := ⟨fun _ _ _ h1 h2 => le_trans h1 h2⟩

/-- The distance value FAISS reports in unfilled result columns (a float32
sentinel; its exact value is irrelevant to every claim, only the `-1` label
is). -/
def padDist : ℚ := 340282346638528859811704183484516925440

/-- Every stored vector labelled with its slot and scored against the
query. -/
def scoredOf (ix : FaissIndex) (q : Vec) : List (Int × ℚ) :=
  ix.vecs.enum.map (fun p => ((p.1 : Int), l2dist q p.2))

/-- `faiss.IndexFlatL2.search` on one query: score every stored vector, rank
by non-decreasing L2 distance, return exactly `k` columns, padding with
label `-1` when the index holds fewer than `k` vectors. -/
def searchFlat (ix : FaissIndex) (q : Vec) (k : Nat) : List (Int × ℚ) :=
  let top := (List.insertionSort distLe (scoredOf ix q)).take k
  top ++ List.replicate (k - top.length) ((-1 : Int), padDist)

/-- The subset of `IndiceMetadata` fields the claims touch (`dimensao`,
`num_vetores`); the remaining fields (id, nome, modelo, timestamps,
tem_mapeamento_ids) play no role in any claim. -/
structure MetaRec where
  dimensao : Int
  num_vetores : Int
deriving DecidableEq, Repr

/-- The per-id state of `FaissService`: `self.indices[id]`,
`self.mapeamentos[id]` and `self.metadados.get(id)` (optional, since a
failed load can leave `metadados` without an entry for the id). -/
structure IndexEntry where
  idx : FaissIndex
  mapping : List (Int × Doc)
  meta : Option MetaRec
deriving DecidableEq, Repr

/-- `FaissService`'s in-memory state, keyed by index id. -/
abbrev FaissState := List (String × IndexEntry)

/-- `FaissService.criar_indice(indice_id, dimensao, tipo)`. -/
def criar_indice (st : FaissState) (indice_id : String) (dimensao : Nat)
    (tipo : String) : Bool × FaissState :=
  if (st.lookup indice_id).isSome then
    -- "Já existe um índice com ID {indice_id}"
    (false, st)
  else
    let index : FaissIndex :=
      if tipo = "flat" then { kind := .flat, dim := dimensao, vecs := [] }
      else if tipo = "ivf" then
        -- IndexIVFFlat(quantizer, dimensao, nlist=100) with nprobe := 10;
        -- constructed untrained, and the repository has no training phase
        { kind := .ivf 100 10 false, dim := dimensao, vecs := [] }
      else if tipo = "hnsw" then { kind := .hnsw 32, dim := dimensao, vecs := [] }
      else
        -- "Tipo de índice desconhecido: {tipo}, usando flat" (warning only)
        { kind := .flat, dim := dimensao, vecs := [] }
    let entry : IndexEntry :=
      { idx := index
        mapping := []
        meta := some { dimensao := (dimensao : Int), num_vetores := 0 } }
    (true, upsert indice_id entry st)

/-- `FaissService.adicionar_vetores(indice_id, vetores, mapeamento)`.
The batch is a 2-D numpy matrix: `rows` are its rows and `width` is
`vetores.shape[1]` (every row of a genuine 2-D array has this length).
Mirrors the source order: dimension check, then `index.add`, then the
mapping update shifted by `offset`, then the metadata update (a missing
metadata entry raises `KeyError` after the vectors were already added,
caught by the blanket `except` which returns `False`). -/
def adicionar_vetores (st : FaissState) (indice_id : String)
    (rows : List Vec) (width : Nat) (mapeamento : List (Int × Doc)) :
    Bool × FaissState :=
  match st.lookup indice_id with
  | none => (false, st)
  | some e =>
    if width ≠ e.idx.dim then
      -- ValueError "Dimensão dos vetores não corresponde ao índice"
      (false, st)
    else if e.idx.is_trained = false then
      -- `index.add` raises on an untrained index (e.g. an IVF index as
      -- criar_indice leaves it), caught by the blanket except before any
      -- state was mutated
      (false, st)
    else
      let offset : Int := (e.idx.ntotal : Int)
      let idx2 : FaissIndex := { e.idx with vecs := e.idx.vecs ++ rows }
      let mapping2 :=
        if mapeamento.isEmpty then e.mapping
        else mapeamento.foldl (fun m p => upsert (offset + p.1) p.2 m) e.mapping
      match e.meta with
      | some m =>
        let e2 : IndexEntry :=
          { idx := idx2, mapping := mapping2
            meta := some { m with num_vetores := (idx2.ntotal : Int) } }
        (true, upsert indice_id e2 st)
      | none =>
        -- KeyError on `self.metadados[indice_id]`: vectors and mapping
        -- were already mutated before the exception was caught.
        (false, upsert indice_id { idx := idx2, mapping := mapping2, meta := none } st)

/-- `index.search` on a trained index.  The flat branch is the exact L2
search.  A trained approximate index (ivf with a completed training phase,
or hnsw) truly returns approximate results; the exact semantics stands in
for those branches here, and no claim theorem depends on them — every
search claim below is restricted to flat or untrained indexes. -/
def searchTrained (ix : FaissIndex) (q : Vec) (k : Nat) : List (Int × ℚ) :=
  match ix.kind with
  | .flat => searchFlat ix q k
  | .ivf _ _ _ => searchFlat ix q k
  | .hnsw _ => searchFlat ix q k

/-- `FaissService.buscar(indice_id, vetor_consulta, k)`: returns the raw
FAISS `(I[0], D[0])` columns; a missing index, a query of the wrong
dimension, or an untrained index (whose `search` raises) yields
`([], [])`. -/
def buscar (st : FaissState) (indice_id : String) (q : Vec) (k : Nat) :
    List Int × List ℚ :=
  match st.lookup indice_id with
  | none => ([], [])
  | some e =>
    if q.length ≠ e.idx.dim then
      -- ValueError, caught: "Erro na busca no índice"
      ([], [])
    else if e.idx.is_trained = false then
      -- `index.search` raises on an untrained index, caught: ([], [])
      ([], [])
    else
      let res := searchTrained e.idx q k
      (res.map Prod.fst, res.map Prod.snd)

/-- `FaissService.buscar_documentos(indice_id, vetor_consulta, k)`: zip the
raw search columns, keep slots that are not `-1` and are present in the
mapping, convert distance to similarity `1 - d/2`. -/
def buscar_documentos (st : FaissState) (indice_id : String) (q : Vec)
    (k : Nat) : List (Doc × ℚ) :=
  match st.lookup indice_id with
  | none => []
  | some e =>
    if e.mapping.isEmpty then []
    else
      let cols := buscar st indice_id q k
      (cols.1.zip cols.2).filterMap (fun p =>
        if p.1 ≠ -1 then
          match e.mapping.lookup p.1 with
          | some doc => some (doc, 1 - p.2 / 2)
          | none => none
        else none)

/-- Digit-string accumulator for `parseInt`. -/
def parseDigitsAux : List Char → Nat → Option Nat
  | [], acc => some acc
  | c :: cs, acc =>
    if c.isDigit then parseDigitsAux cs (acc * 10 + (c.toNat - 48)) else none

/-- Python `int(s)` on a mapping key: an optional minus sign followed by at
least one digit; anything else raises (modelled as `none`). -/
def parseInt (s : String) : Option Int :=
  match s.toList with
  | [] => none
  | c :: rest =>
    if c.toNat = 45 then
      match rest with
      | [] => none
      | _ => (parseDigitsAux rest 0).map (fun n => -(n : Int))
    else (parseDigitsAux (c :: rest) 0).map (fun n => (n : Int))

/-- The dict comprehension `{int(k): v for k, v in mapeamento_raw.items()}`;
fails (raises) as soon as one key does not parse. -/
def convertKeys : List (String × Doc) → Option (List (Int × Doc))
  | [] => some []
  | (k, v) :: rest =>
    match parseInt k with
    | none => none
    | some i => (convertKeys rest).map (fun r => (i, v) :: r)

/-- One persisted snapshot as found on disk: the index blob (`none` when
`faiss.read_index` fails), the optional string-keyed mapping JSON, and the
optional (already pydantic-validated) metadata. -/
structure DiskSnapshot where
  blob : Option FaissIndex
  mapping : Option (List (String × Doc))
  metadata : Option MetaRec
deriving DecidableEq, Repr

/-- `FaissService.carregar_indice(indice_id)` applied to a resolved disk
snapshot.  Source order: `self.indices[id] = faiss.read_index(...)`, then
`self.mapeamentos[id] = {}`, then (if the mapping file exists) the key
conversion, then metadata adoption (file contents verbatim, or basic
metadata synthesised from the blob).  A key-conversion failure is caught by
the blanket `except` and returns `False`, leaving the already-assigned
index and the emptied mapping in memory. -/
def carregar_indice (st : FaissState) (indice_id : String)
    (disk : DiskSnapshot) : Bool × FaissState :=
  match disk.blob with
  | none => (false, st)
  | some blob =>
    let prevMeta : Option MetaRec := ((st.lookup indice_id).map IndexEntry.meta).join
    let st1 := upsert indice_id { idx := blob, mapping := [], meta := prevMeta } st
    let mappingResult : Option (List (Int × Doc)) :=
      match disk.mapping with
      | none => some []
      | some raw => convertKeys raw
    match mappingResult with
    | none => (false, st1)
    | some m =>
      let meta2 : MetaRec :=
        match disk.metadata with
        | some mr => mr
        | none => { dimensao := (blob.dim : Int), num_vetores := (blob.ntotal : Int) }
      (true, upsert indice_id { idx := blob, mapping := m, meta := some meta2 } st)

/-- `EmbeddingsService`'s state relevant to the claims: the in-memory
embedding cache (`cache_embeddings`), the single FAISS index (`self.index`)
with its slot-to-document map (`id_para_documento`), the configured model
name and embedding dimension, and the scripted external provider.  The
provider (`self.client.embeddings.create`) is modelled as an oracle stream
consumed one element per API call: `some vecs` is a successful response
carrying one vector per returned datum, `none` (or an exhausted stream) is a
raised provider error.  `calls` and `flushes` are ghost counters recording
how many provider calls and `salvar_cache` invocations have occurred. -/
structure EmbState where
  cache : List (String × Vec)
  index : Option FaissIndex
  id_para_documento : List (Int × Doc)
  modelo : String
  dim : Nat
  oracle : List (Option (List Vec))
  calls : Nat
  flushes : Nat
deriving DecidableEq, Repr

/-- The cache key `f"{md5(texto)}_{modelo}"`.  Only determinism and
injectivity in the text matter to the claims, so the md5 hexdigest is
modelled by the text itself. -/
def chave_cache (texto modelo : String) : String := texto ++ "_" ++ modelo

/-- One call to the external embedding API: consumes the head of the oracle
stream (an empty stream behaves as a failure) and counts the call. -/
def callProvider (st : EmbState) : Option (List Vec) × EmbState :=
  match st.oracle with
  | [] => (none, { st with calls := st.calls + 1 })
  | r :: rest => (r, { st with oracle := rest, calls := st.calls + 1 })

/-- `salvar_cache`: serialises the cache to a new snapshot file; in memory
it only counts as a flush. -/
def salvar_cache (st : EmbState) : EmbState := { st with flushes := st.flushes + 1 }

/-- `EmbeddingsService.gerar_embedding(texto)`: cache-first; on a miss, one
provider call; on success the vector is cached and `salvar_cache` runs when
`len(cache_embeddings) % 10 == 0`; on failure (or an empty response, whose
`response.data[0]` raises) a zero vector of the configured dimension is
returned and nothing is cached. -/
def gerar_embedding (st : EmbState) (texto : String) : Vec × EmbState :=
  let chave := chave_cache texto st.modelo
  match st.cache.lookup chave with
  | some v => (v, st)
  | none =>
    let call := callProvider st
    match call.1 with
    | some vecs =>
      match vecs with
      | emb :: _ =>
        let st2 := { call.2 with cache := upsert chave emb call.2.cache }
        let st3 := if st2.cache.length % 10 = 0 then salvar_cache st2 else st2
        (emb, st3)
      | [] => (zeros st.dim, call.2)
    | none => (zeros st.dim, call.2)

/-- The first pass of `gerar_embeddings_batch`, from position `i` on:
resolve each text against the (unchanged) cache, producing the provisional
result list (`some v` for cache hits, `none` for the reserved miss
positions) together with `textos_para_processar` and
`indices_para_processar`, in order. -/
def batchSplitAux (st : EmbState) : List String → Nat →
    List (Option Vec) × List String × List Nat
  | [], _ => ([], [], [])
  | texto :: rest, i =>
    let r := batchSplitAux st rest (i + 1)
    match st.cache.lookup (chave_cache texto st.modelo) with
    | some v => (some v :: r.1, r.2.1, r.2.2)
    | none => (none :: r.1, texto :: r.2.1, i :: r.2.2)

/-- The cache-hit / cache-miss partition of a batch. -/
def batchSplit (st : EmbState) (textos : List String) :
    List (Option Vec) × List String × List Nat :=
  batchSplitAux st textos 0

/-- `EmbeddingsService.gerar_embeddings_batch(textos)`.  Cache hits are
resolved up front; one provider call covers all misses.  On success each
returned datum is cached (key recomputed from its text) and spliced into
the result at its reserved position; a response longer than the miss list
raises `IndexError` after all misses were processed, which skips the
unconditional `salvar_cache` but keeps the cache writes; a shorter response
completes the loop, flushes, and leaves the unprocessed reserved positions
as `None`.  On provider failure the `except` branch fills every reserved
position still `None` with zero vectors and caches nothing. -/
def gerar_embeddings_batch (st : EmbState) (textos : List String) :
    List (Option Vec) × EmbState :=
  let split := batchSplit st textos
  let base := split.1
  let missTexts := split.2.1
  let missIdxs := split.2.2
  if missTexts.isEmpty then (base, st)
  else
    let call := callProvider st
    match call.1 with
    | none =>
      (missIdxs.foldl (fun l i => l.set i (some (zeros st.dim))) base, call.2)
    | some vecs =>
      let processed := missTexts.zip (missIdxs.zip vecs)
      let st2 := processed.foldl
        (fun s p => { s with cache := upsert (chave_cache p.1 s.modelo) p.2.2 s.cache })
        call.2
      let base2 := processed.foldl (fun l p => l.set p.2.1 (some p.2.2)) base
      if missIdxs.length < vecs.length then
        -- IndexError on `indices_para_processar[i]`: flush skipped, cache
        -- writes stand, and the except-branch zero-fill finds nothing left.
        (base2, st2)
      else
        (base2, salvar_cache st2)

/-- The filter predicate of `EmbeddingsService.buscar`: every `(chave,
valor)` pair must match, probing `hasattr`/`getattr` first and dict
membership second; a document carrying the key on neither surface fails the
filter. -/
def atende_filtro (doc : Doc) (filtro : List (String × String)) : Bool :=
  filtro.all fun p =>
    match doc.attrs.lookup p.1 with
    | some a => a == p.2
    | none =>
      match doc.items.lookup p.1 with
      | some x => x == p.2
      | none => false

/-- `EmbeddingsService.buscar(texto_consulta, k, filtro)`: embed the query
(cache-first, possibly calling the provider), search the single index,
resolve slots through `id_para_documento` skipping `-1` and unmapped slots,
convert distance to similarity `1 - d/2`, and, when a non-empty filter is
given, drop documents failing `atende_filtro`.  A query vector whose length
differs from the index dimension, or an untrained index, makes the FAISS
call raise, caught by the blanket `except` which returns `[]`. -/
def buscar_emb (st : EmbState) (texto : String) (k : Nat)
    (filtro : List (String × String)) : List (Doc × ℚ) × EmbState :=
  match st.index with
  | none => ([], st)
  | some index =>
    let r := gerar_embedding st texto
    let st1 := r.2
    if r.1.length ≠ index.dim then ([], st1)
    else if index.is_trained = false then ([], st1)
    else
      let res := searchTrained index r.1 k
      let out := res.filterMap (fun p =>
        if p.1 = -1 then none
        else
          match st1.id_para_documento.lookup p.1 with
          | none => none
          | some doc =>
            if filtro.isEmpty then some (doc, (1 : ℚ) - p.2 / 2)
            else if atende_filtro doc filtro then some (doc, (1 : ℚ) - p.2 / 2)
            else none)
      (out, st1)

/-! ## Dictionary bookkeeping lemmas -/

theorem lookup_upsert_self {α β : Type} [BEq α] [LawfulBEq α] (k : α) (v : β) :
    ∀ l : List (α × β), (upsert k v l).lookup k = some v
  | [] => by simp [upsert, List.lookup]
  | (k2, v2) :: rest => by
    by_cases h : (k == k2) = true
    · simp [upsert, h, List.lookup]
    · simp only [upsert, h, Bool.false_eq_true, if_false, List.lookup, h]
      exact lookup_upsert_self k v rest

theorem lookup_upsert_ne {α β : Type} [BEq α] [LawfulBEq α] (k q : α) (v : β)
    (h : q ≠ k) : ∀ l : List (α × β), (upsert k v l).lookup q = l.lookup q
  | [] => by
    have hqk : (q == k) = false := beq_eq_false_iff_ne.mpr h
    simp [upsert, List.lookup, hqk]
  | (k2, v2) :: rest => by
    have hqk : (q == k) = false := beq_eq_false_iff_ne.mpr h
    by_cases h2 : (k == k2) = true
    · have hk : k = k2 := by simpa using h2
      subst hk
      simp [upsert, List.lookup, hqk]
    · simp only [upsert, h2, Bool.false_eq_true, if_false, List.lookup]
      by_cases h3 : (q == k2) = true
      · simp [h3]
      · simp only [h3, Bool.false_eq_true, if_false]
        exact lookup_upsert_ne k q v h rest

theorem lookup_foldl_upsert_of_forall_ne {β : Type} (off : Int) (q : Int) :
    ∀ (batch : List (Int × β)), (∀ p ∈ batch, off + p.1 ≠ q) →
    ∀ m0 : List (Int × β),
      (batch.foldl (fun m p => upsert (off + p.1) p.2 m) m0).lookup q = m0.lookup q
  | [], _, _ => rfl
  | p0 :: rest, hq, m0 => by
    simp only [List.foldl_cons]
    rw [lookup_foldl_upsert_of_forall_ne off q rest
      (fun p hp => hq p (List.mem_cons_of_mem _ hp))]
    exact lookup_upsert_ne _ q _ (hq p0 (List.mem_cons_self _ _)).symm m0

theorem lookup_foldl_upsert_self {β : Type} (off : Int) :
    ∀ (batch : List (Int × β)),
    (batch.map (fun p => off + p.1)).Nodup →
    ∀ p ∈ batch, ∀ m0 : List (Int × β),
      (batch.foldl (fun m p => upsert (off + p.1) p.2 m) m0).lookup (off + p.1) = some p.2
  | [], _, p, hp, _ => absurd hp (List.not_mem_nil p)
  | q0 :: rest, hnd, p, hp, m0 => by
    simp only [List.map_cons, List.nodup_cons] at hnd
    rcases List.mem_cons.mp hp with h | h
    · subst h
      simp only [List.foldl_cons]
      rw [lookup_foldl_upsert_of_forall_ne off (off + p.1) rest
        (fun p2 hp2 heq => hnd.1 (heq ▸ List.mem_map_of_mem _ hp2))]
      exact lookup_upsert_self _ _ m0
    · simp only [List.foldl_cons]
      exact lookup_foldl_upsert_self off rest hnd.2 p h _

/-! ## Claim theorems -/

/-- Sample documents used by concrete witnesses and counterexamples. -/
def docA : Doc := { attrs := [("tipo", "cliente")], items := [] }

/-- A dict-style sample document. -/
def docB : Doc := { attrs := [], items := [("tipo", "fatura")] }

/-- C10: for any index kind outside {flat, ivf, hnsw} and an unused id,
`criar_indice` succeeds and silently creates an exact flat L2 index of the
requested dimension. -/
theorem criar_indice_unknown_kind_falls_back_to_flat
    (st : FaissState) (indice_id : String) (dimensao : Nat) (tipo : String)
    (h1 : tipo ≠ "flat") (h2 : tipo ≠ "ivf") (h3 : tipo ≠ "hnsw")
    (h4 : st.lookup indice_id = none) :
    criar_indice st indice_id dimensao tipo =
      (true, upsert indice_id
        { idx := { kind := .flat, dim := dimensao, vecs := [] }
          mapping := []
          meta := some { dimensao := (dimensao : Int), num_vetores := 0 } } st) := by
  simp [criar_indice, h1, h2, h3, h4]

/-- Witness for C10 at a concrete unknown kind. -/
theorem criar_indice_unknown_kind_falls_back_to_flat_witness :
    criar_indice [] "idx1" 3 "lsh" =
      (true, upsert "idx1"
        { idx := { kind := .flat, dim := 3, vecs := [] }
          mapping := []
          meta := some { dimensao := 3, num_vetores := 0 } } []) :=
  criar_indice_unknown_kind_falls_back_to_flat [] "idx1" 3 "lsh"
    (by decide) (by decide) (by decide) rfl

/-- C5: adding a 2-D batch whose per-vector dimension differs from the index
dimension is rejected (returns `False`) and the whole service state,
including the index vectors, the slot mapping and the vector count, is
untouched. -/
theorem adicionar_vetores_dim_mismatch_rejected
    (st : FaissState) (indice_id : String) (rows : List Vec) (width : Nat)
    (mapeamento : List (Int × Doc)) (e : IndexEntry)
    (he : st.lookup indice_id = some e) (hw : width ≠ e.idx.dim)
    (hrows : ∀ r ∈ rows, r.length = width) :
    adicionar_vetores st indice_id rows width mapeamento = (false, st) := by
  simp [adicionar_vetores, he, hw]

/-- A one-vector flat index entry used by several concrete witnesses. -/
def entW : IndexEntry :=
  { idx := { kind := .flat, dim := 1, vecs := [[0]] }
    mapping := [(0, docA)]
    meta := some { dimensao := 1, num_vetores := 1 } }

/-- A one-index service state used by several concrete witnesses. -/
def stW : FaissState := [("i", entW)]

/-- Witness for C5: a 2-wide batch against a 1-dimensional index. -/
theorem adicionar_vetores_dim_mismatch_rejected_witness :
    adicionar_vetores stW "i" [[2, 3]] 2 [(0, docB)] = (false, stW) :=
  adicionar_vetores_dim_mismatch_rejected stW "i" [[2, 3]] 2 [(0, docB)] entW
    rfl (by decide) (by decide)

/-- The entry `criar_indice` leaves behind for an 'ivf' index: an untrained
`IndexIVFFlat` (the repository performs no training phase). -/
def entIvf : IndexEntry :=
  { idx := { kind := .ivf 100 10 false, dim := 1, vecs := [] }
    mapping := []
    meta := some { dimensao := 1, num_vetores := 0 } }

/-- The reachable state produced by `criar_indice({}, "iv", 1, "ivf")`. -/
def stIvf : FaissState := (criar_indice [] "iv" 1 "ivf").2

/-- C1 counterexample: on the untrained IVF index that `criar_indice "ivf"`
leaves behind (present in the store, dimension matching the batch),
`adicionar_vetores` does not succeed: `index.add` raises, the call returns
`False` and the state is unchanged. -/
theorem adicionar_vetores_fails_on_untrained_ivf :
    (stIvf.lookup "iv").map (fun e => e.idx.dim) = some 1 ∧
    adicionar_vetores stIvf "iv" [[2]] 1 [(0, docA)] = (false, stIvf) :=
  ⟨rfl, rfl⟩

/-- C1 amended: for a present index whose FAISS object is trained (flat and
hnsw always are; ivf only after a training step the repository never
performs) and which has a metadata entry, every well-dimensioned add
succeeds, the vector count grows by exactly the batch size, and every
supplied mapping entry with local slot `s` lands at global slot
`offset + s` where `offset` is the vector count before the call; on an
untrained index the add is rejected with `False` and the state is
unchanged. -/
theorem adicionar_vetores_offset_correct_when_trained :
    (∀ (st : FaissState) (indice_id : String) (rows : List Vec)
        (mapeamento : List (Int × Doc)) (e : IndexEntry) (m : MetaRec),
      st.lookup indice_id = some e → e.meta = some m →
      e.idx.is_trained = true →
      (∀ r ∈ rows, r.length = e.idx.dim) →
      (mapeamento.map Prod.fst).Nodup →
      (adicionar_vetores st indice_id rows e.idx.dim mapeamento).1 = true ∧
      ∃ e2, ((adicionar_vetores st indice_id rows e.idx.dim mapeamento).2.lookup indice_id
          = some e2) ∧
        e2.idx.ntotal = e.idx.ntotal + rows.length ∧
        e2.meta = some { m with num_vetores := ((e.idx.ntotal + rows.length : Nat) : Int) } ∧
        ∀ p ∈ mapeamento,
          e2.mapping.lookup ((e.idx.ntotal : Int) + p.1) = some p.2) ∧
    (∀ (st : FaissState) (indice_id : String) (rows : List Vec) (width : Nat)
        (mapeamento : List (Int × Doc)) (e : IndexEntry),
      st.lookup indice_id = some e → e.idx.is_trained = false →
      adicionar_vetores st indice_id rows width mapeamento = (false, st)) := by
  constructor
  · intro st indice_id rows mapeamento e m he hm htr hrows hnd
    simp only [adicionar_vetores, he, ne_eq, not_true_eq_false, if_false, htr,
      Bool.true_eq_false, hm]
    refine ⟨by trivial, ?_⟩
    refine ⟨_, lookup_upsert_self indice_id _ st, ?_, ?_, ?_⟩
    · simp [FaissIndex.ntotal]
    · simp [FaissIndex.ntotal]
    · intro p hp
      by_cases hemp : mapeamento.isEmpty
      · rw [List.isEmpty_iff] at hemp
        subst hemp
        exact absurd hp (List.not_mem_nil p)
      · simp only [hemp, Bool.false_eq_true, if_false]
        refine lookup_foldl_upsert_self _ mapeamento ?_ p hp e.mapping
        have hmm : mapeamento.map (fun p => (e.idx.ntotal : Int) + p.1)
            = (mapeamento.map Prod.fst).map (fun k => (e.idx.ntotal : Int) + k) := by
          simp [List.map_map, Function.comp]
        rw [hmm]
        exact hnd.map (fun a b hab => by omega)
  · intro st indice_id rows width mapeamento e he huntr
    by_cases hw : width = e.idx.dim
    · simp [adicionar_vetores, he, hw, huntr]
    · simp [adicionar_vetores, he, hw]

/-- Witness for the amended C1: a two-vector batch with a two-entry mapping
on the trained flat index, and a rejected add on the untrained IVF index. -/
theorem adicionar_vetores_offset_correct_when_trained_witness :
    ((adicionar_vetores stW "i" [[2], [3]] entW.idx.dim [(0, docA), (1, docB)]).1 = true ∧
     ∃ e2, ((adicionar_vetores stW "i" [[2], [3]] entW.idx.dim
        [(0, docA), (1, docB)]).2.lookup "i" = some e2) ∧
      e2.idx.ntotal = entW.idx.ntotal + 2 ∧
      e2.meta = some { MetaRec.mk 1 1 with
        num_vetores := ((entW.idx.ntotal + 2 : Nat) : Int) } ∧
      ∀ p ∈ [(0, docA), (1, docB)],
        e2.mapping.lookup ((entW.idx.ntotal : Int) + p.1) = some p.2) ∧
    adicionar_vetores stIvf "iv" [[3]] 1 [] = (false, stIvf) :=
  ⟨adicionar_vetores_offset_correct_when_trained.1 stW "i" [[2], [3]]
      [(0, docA), (1, docB)] entW (MetaRec.mk 1 1) rfl rfl rfl (by decide) (by decide),
   adicionar_vetores_offset_correct_when_trained.2 stIvf "iv" [[3]] 1 [] entIvf
      rfl rfl⟩

/-- A snapshot whose index blob (dimension 3, empty) and metadata file
(dimension 5, 99 vectors) flatly disagree. -/
def diskC3 : DiskSnapshot :=
  { blob := some { kind := .flat, dim := 3, vecs := [] }
    mapping := some []
    metadata := some { dimensao := 5, num_vetores := 99 } }

/-- C3 counterexample: loading a snapshot whose blob dimension (3) and
metadata dimension (5) disagree is not refused: `carregar_indice` returns
`True` and adopts the inconsistent pair wholesale. -/
theorem carregar_indice_accepts_mismatched_snapshot :
    carregar_indice [] "i" diskC3 =
      (true, [("i", { idx := { kind := .flat, dim := 3, vecs := [] }
                      mapping := []
                      meta := some { dimensao := 5, num_vetores := 99 } })]) ∧
    (5 : Int) ≠ 3 :=
  ⟨rfl, by decide⟩

/-- C3 amended: `carregar_indice` performs no cross-validation at all.  Any
snapshot whose blob reads and whose mapping keys parse is adopted verbatim
(metadata taken as-is when present, synthesised from the blob otherwise)
and the load reports success, regardless of whether blob dimension,
metadata dimension and mapping bounds agree. -/
theorem carregar_indice_adopts_snapshot_verbatim
    (st : FaissState) (indice_id : String) (disk : DiskSnapshot)
    (blob : FaissIndex) (raw : List (String × Doc)) (m : List (Int × Doc))
    (hb : disk.blob = some blob) (hmap : disk.mapping = some raw)
    (hk : convertKeys raw = some m) :
    carregar_indice st indice_id disk =
      (true, upsert indice_id
        { idx := blob, mapping := m
          meta := some (disk.metadata.getD
            { dimensao := (blob.dim : Int), num_vetores := (blob.ntotal : Int) }) } st) := by
  simp only [carregar_indice, hb, hmap, hk]
  cases disk.metadata <;> rfl

/-- Witness for the amended C3 on the concrete mismatched snapshot. -/
theorem carregar_indice_adopts_snapshot_verbatim_witness :
    carregar_indice [] "j" diskC3 =
      (true, upsert "j"
        { idx := { kind := .flat, dim := 3, vecs := [] }
          mapping := []
          meta := some { dimensao := 5, num_vetores := 99 } } []) :=
  carregar_indice_adopts_snapshot_verbatim [] "j" diskC3 _ [] [] rfl rfl rfl

/-- A snapshot whose mapping file holds slot key "7" while the blob holds
only two vectors. -/
def diskC6 : DiskSnapshot :=
  { blob := some { kind := .flat, dim := 1, vecs := [[0], [1]] }
    mapping := some [("7", docA)]
    metadata := none }

/-- C6 counterexample: a persisted mapping entry with slot 7 on an index of
vector count 2 is not rejected on load; it lands in the in-memory mapping,
so the invariant "every mapping key < vectorCount" fails after the load. -/
theorem carregar_indice_keeps_out_of_range_slot :
    carregar_indice [] "i" diskC6 =
      (true, [("i", { idx := { kind := .flat, dim := 1, vecs := [[0], [1]] }
                      mapping := [(7, docA)]
                      meta := some { dimensao := 1, num_vetores := 2 } })]) ∧
    ¬((7 : Int) < 2) :=
  ⟨rfl, by decide⟩

/-- C6 amended: the load converts every parseable string key to an integer
and retains every entry unchanged; no range check against `[0, vectorCount)`
is applied. -/
theorem carregar_indice_mapping_kept_unfiltered
    (st : FaissState) (indice_id : String) (disk : DiskSnapshot)
    (blob : FaissIndex) (raw : List (String × Doc)) (m : List (Int × Doc))
    (hb : disk.blob = some blob) (hmap : disk.mapping = some raw)
    (hk : convertKeys raw = some m) :
    ((carregar_indice st indice_id disk).2.lookup indice_id).map IndexEntry.mapping
      = some m := by
  simp only [carregar_indice, hb, hmap, hk]
  cases disk.metadata <;> simp [lookup_upsert_self]

/-- Witness for the amended C6 on the concrete out-of-range snapshot. -/
theorem carregar_indice_mapping_kept_unfiltered_witness :
    ((carregar_indice [] "i" diskC6).2.lookup "i").map IndexEntry.mapping
      = some [(7, docA)] :=
  carregar_indice_mapping_kept_unfiltered [] "i" diskC6 _ [("7", docA)]
    [(7, docA)] rfl rfl rfl

/-! ## Structure of flat search results -/

theorem scoredOf_length (ix : FaissIndex) (q : Vec) :
    (scoredOf ix q).length = ix.ntotal := by
  simp [scoredOf, FaissIndex.ntotal, List.enum_length]

theorem searchFlat_top_length (ix : FaissIndex) (q : Vec) (k : Nat) :
    ((List.insertionSort distLe (scoredOf ix q)).take k).length = min k ix.ntotal := by
  simp only [List.length_take, List.length_insertionSort]
  rw [scoredOf_length]

theorem searchFlat_length (ix : FaissIndex) (q : Vec) (k : Nat) :
    (searchFlat ix q k).length = k := by
  have h : min k ix.ntotal ≤ k := Nat.min_le_left _ _
  simp only [searchFlat, List.length_append, searchFlat_top_length,
    List.length_replicate]
  omega

theorem searchFlat_take (ix : FaissIndex) (q : Vec) (k : Nat) :
    (searchFlat ix q k).take (min k ix.ntotal)
      = (List.insertionSort distLe (scoredOf ix q)).take k := by
  simp only [searchFlat]
  rw [← searchFlat_top_length ix q k, List.take_left]

theorem searchFlat_drop (ix : FaissIndex) (q : Vec) (k : Nat) :
    (searchFlat ix q k).drop (min k ix.ntotal)
      = List.replicate (k - min k ix.ntotal) ((-1 : Int), padDist) := by
  simp only [searchFlat]
  rw [← searchFlat_top_length ix q k, List.drop_left]

theorem searchFlat_sorted_take (ix : FaissIndex) (q : Vec) (k : Nat) :
    (((searchFlat ix q k).map Prod.snd).take (min k ix.ntotal)).Pairwise (· ≤ ·) := by
  rw [← List.map_take, searchFlat_take, List.pairwise_map]
  exact List.Pairwise.sublist (List.take_sublist k _)
    (List.sorted_insertionSort distLe (scoredOf ix q))

theorem searchFlat_padding (ix : FaissIndex) (q : Vec) (k : Nat) :
    ((searchFlat ix q k).map Prod.fst).drop (min k ix.ntotal)
      = List.replicate (k - min k ix.ntotal) (-1) := by
  rw [← List.map_drop, searchFlat_drop, List.map_replicate]

theorem mem_searchFlat_top {ix : FaissIndex} {q : Vec} {k : Nat} {p : Int × ℚ}
    (hp : p ∈ (List.insertionSort distLe (scoredOf ix q)).take k) :
    0 ≤ p.1 ∧ p.1 < (ix.ntotal : Int) := by
  have h1 : p ∈ List.insertionSort distLe (scoredOf ix q) :=
    List.mem_of_mem_take hp
  have h2 : p ∈ scoredOf ix q :=
    (List.perm_insertionSort distLe (scoredOf ix q)).mem_iff.mp h1
  simp only [scoredOf, List.mem_map] at h2
  obtain ⟨a, ha, rfl⟩ := h2
  have h3 : a.1 < ix.vecs.length := by
    have hg := List.mem_enum_iff_getElem?.mp ha
    exact (List.getElem?_eq_some.mp hg).1
  constructor
  · exact Int.ofNat_nonneg a.1
  · show ((a.1 : Nat) : Int) < ((ix.vecs.length : Nat) : Int)
    exact_mod_cast h3

theorem filterMap_replicate_none {α β : Type} (f : α → Option β) (a : α)
    (h : f a = none) : ∀ m : Nat, (List.replicate m a).filterMap f = []
  | 0 => rfl
  | m + 1 => by
    simp [List.replicate_succ, List.filterMap_cons, h, filterMap_replicate_none f a h m]

theorem length_filterMap_of_isSome {α β : Type} (f : α → Option β) :
    ∀ l : List α, (∀ a ∈ l, (f a).isSome = true) →
      (l.filterMap f).length = l.length
  | [], _ => rfl
  | a :: rest, h => by
    have ha : (f a).isSome = true := h a (List.mem_cons_self _ _)
    obtain ⟨b, hb⟩ := Option.isSome_iff_exists.mp ha
    simp [List.filterMap_cons, hb,
      length_filterMap_of_isSome f rest (fun x hx => h x (List.mem_cons_of_mem _ hx))]

/-- C2 counterexample: on an index holding a single vector, `buscar` with
`k = 2` does not return exactly `vectorCount = 1` results: it returns two
columns, the second being the FAISS padding entry with slot `-1`. -/
theorem buscar_pads_when_k_exceeds_ntotal :
    (buscar stW "i" [0] 2).1 = [0, -1] ∧
    ¬((buscar stW "i" [0] 2).1.length = entW.idx.ntotal) := by
  constructor
  · rfl
  · decide

/-- C2 amended: for a present flat index and a query of the right dimension,
`buscar` returns exactly `k` columns whose first `min k vectorCount`
distances are sorted non-decreasingly and whose remaining columns are `-1`
padding; `buscar_documentos` drops the padding (and unmapped slots), so it
returns at most `min k vectorCount` documents — exactly `vectorCount` when
`k ≥ vectorCount` and every slot below `vectorCount` is mapped.  On an
untrained index (such as the IVF index `criar_indice` leaves untrained)
`search` raises, so `buscar` returns no columns at all and
`buscar_documentos` returns no documents. -/
theorem buscar_ranking_and_padding :
    (∀ (st : FaissState) (indice_id : String) (q : Vec) (k : Nat) (e : IndexEntry),
      st.lookup indice_id = some e → q.length = e.idx.dim →
      e.idx.kind = .flat →
      (buscar st indice_id q k).1.length = k ∧
      (buscar st indice_id q k).2.length = k ∧
      ((buscar st indice_id q k).2.take (min k e.idx.ntotal)).Pairwise (· ≤ ·) ∧
      ((buscar st indice_id q k).1.drop (min k e.idx.ntotal)
        = List.replicate (k - min k e.idx.ntotal) (-1)) ∧
      (buscar_documentos st indice_id q k).length ≤ min k e.idx.ntotal ∧
      ((∀ s : Nat, s < e.idx.ntotal → ((e.mapping.lookup (s : Int)).isSome = true)) →
        e.idx.ntotal ≤ k →
        (buscar_documentos st indice_id q k).length = e.idx.ntotal)) ∧
    (∀ (st : FaissState) (indice_id : String) (q : Vec) (k : Nat) (e : IndexEntry),
      st.lookup indice_id = some e → e.idx.is_trained = false →
      buscar st indice_id q k = ([], []) ∧
      buscar_documentos st indice_id q k = []) := by
  constructor
  · intro st indice_id q k e he hq hflat
    have htr : e.idx.is_trained = true := by
      simp [FaissIndex.is_trained, hflat]
    have hbuscar : buscar st indice_id q k =
        ((searchFlat e.idx q k).map Prod.fst, (searchFlat e.idx q k).map Prod.snd) := by
      simp [buscar, he, hq, htr, searchTrained, hflat]
    have hzip : ((searchFlat e.idx q k).map Prod.fst).zip
        ((searchFlat e.idx q k).map Prod.snd) = searchFlat e.idx q k := by
      rw [List.zip_map']
      simp
    have hsplit : searchFlat e.idx q k
        = (List.insertionSort distLe (scoredOf e.idx q)).take k
          ++ List.replicate (k - min k e.idx.ntotal) ((-1 : Int), padDist) := by
      conv_lhs => rw [← List.take_append_drop (min k e.idx.ntotal) (searchFlat e.idx q k)]
      rw [searchFlat_take, searchFlat_drop]
    have hdocs : buscar_documentos st indice_id q k =
        if e.mapping.isEmpty then ([] : List (Doc × ℚ)) else
          (searchFlat e.idx q k).filterMap (fun p =>
            if p.1 ≠ -1 then
              match e.mapping.lookup p.1 with
              | some doc => some (doc, 1 - p.2 / 2)
              | none => none
            else none) := by
      simp only [buscar_documentos, he, hbuscar, hzip]
    refine ⟨?_, ?_, ?_, ?_, ?_, ?_⟩
    · rw [hbuscar]
      simp [searchFlat_length]
    · rw [hbuscar]
      simp [searchFlat_length]
    · rw [hbuscar]
      exact searchFlat_sorted_take e.idx q k
    · rw [hbuscar]
      exact searchFlat_padding e.idx q k
    · rw [hdocs]
      by_cases hemp : e.mapping.isEmpty
      · simp [hemp]
      · simp only [hemp, Bool.false_eq_true, if_false]
        rw [hsplit, List.filterMap_append]
        rw [filterMap_replicate_none _ _ (by simp)]
        rw [List.append_nil]
        have hle := List.length_filterMap_le
          (fun p : Int × ℚ =>
            if p.1 ≠ -1 then
              match List.lookup p.1 e.mapping with
              | some doc => some (doc, 1 - p.2 / 2)
              | none => none
            else none)
          ((List.insertionSort distLe (scoredOf e.idx q)).take k)
        rw [searchFlat_top_length] at hle
        exact hle
    · intro hmap hnk
      rw [hdocs]
      by_cases hemp : e.mapping.isEmpty
      · rw [List.isEmpty_iff] at hemp
        rcases Nat.eq_zero_or_pos e.idx.ntotal with h0 | h0
        · simp [hemp, h0]
        · have hcontra := hmap 0 h0
          rw [hemp] at hcontra
          simp [List.lookup] at hcontra
      · simp only [hemp, Bool.false_eq_true, if_false]
        rw [hsplit, List.filterMap_append]
        rw [filterMap_replicate_none _ _ (by simp)]
        rw [List.append_nil]
        rw [length_filterMap_of_isSome]
        · rw [searchFlat_top_length]
          exact Nat.min_eq_right hnk
        · intro p hp
          obtain ⟨hp0, hpn⟩ := mem_searchFlat_top hp
          have hne : p.1 ≠ -1 := by omega
          have hs : p.1.toNat < e.idx.ntotal := by omega
          have hsome := hmap p.1.toNat hs
          rw [Int.toNat_of_nonneg hp0] at hsome
          obtain ⟨doc, hdoc⟩ := Option.isSome_iff_exists.mp hsome
          simp [hne, hdoc]
  · intro st indice_id q k e he huntr
    have hb : buscar st indice_id q k = ([], []) := by
      by_cases hq : q.length = e.idx.dim
      · simp [buscar, he, hq, huntr]
      · simp [buscar, he, hq]
    refine ⟨hb, ?_⟩
    by_cases hemp : e.mapping.isEmpty
    · simp [buscar_documentos, he, hemp]
    · simp [buscar_documentos, he, hemp, hb]

/-- Witness for the amended C2: the one-vector flat index queried with
`k = 2`, and the untrained IVF index returning nothing. -/
theorem buscar_ranking_and_padding_witness :
    ((buscar stW "i" [0] 2).1.length = 2 ∧
     (buscar stW "i" [0] 2).2.length = 2 ∧
     ((buscar stW "i" [0] 2).2.take (min 2 entW.idx.ntotal)).Pairwise (· ≤ ·) ∧
     ((buscar stW "i" [0] 2).1.drop (min 2 entW.idx.ntotal)
       = List.replicate (2 - min 2 entW.idx.ntotal) (-1)) ∧
     (buscar_documentos stW "i" [0] 2).length ≤ min 2 entW.idx.ntotal ∧
     ((∀ s : Nat, s < entW.idx.ntotal →
         ((entW.mapping.lookup (s : Int)).isSome = true)) →
       entW.idx.ntotal ≤ 2 →
       (buscar_documentos stW "i" [0] 2).length = entW.idx.ntotal)) ∧
    (buscar stIvf "iv" [0] 3 = ([], []) ∧
     buscar_documentos stIvf "iv" [0] 3 = []) :=
  ⟨buscar_ranking_and_padding.1 stW "i" [0] 2 entW rfl rfl rfl,
   buscar_ranking_and_padding.2 stIvf "iv" [0] 3 entIvf rfl rfl⟩

/-! ## Unfolding lemmas for the embedding provider paths -/

theorem gerar_embedding_hit (st : EmbState) (texto : String) (v : Vec)
    (hv : st.cache.lookup (chave_cache texto st.modelo) = some v) :
    gerar_embedding st texto = (v, st) := by
  simp [gerar_embedding, hv]

theorem gerar_embedding_miss_failure (st : EmbState) (texto : String)
    (rest : List (Option (List Vec)))
    (hmiss : st.cache.lookup (chave_cache texto st.modelo) = none)
    (hor : st.oracle = none :: rest) :
    gerar_embedding st texto =
      (zeros st.dim, { st with oracle := rest, calls := st.calls + 1 }) := by
  simp [gerar_embedding, hmiss, callProvider, hor]

theorem gerar_embedding_miss_success (st : EmbState) (texto : String)
    (vv : Vec) (vs : List Vec) (rest : List (Option (List Vec)))
    (hmiss : st.cache.lookup (chave_cache texto st.modelo) = none)
    (hor : st.oracle = some (vv :: vs) :: rest) :
    (gerar_embedding st texto).1 = vv ∧
    (gerar_embedding st texto).2.cache
      = upsert (chave_cache texto st.modelo) vv st.cache ∧
    (gerar_embedding st texto).2.calls = st.calls + 1 ∧
    (gerar_embedding st texto).2.modelo = st.modelo ∧
    (gerar_embedding st texto).2.flushes = st.flushes
      + (if (upsert (chave_cache texto st.modelo) vv st.cache).length % 10 = 0
          then 1 else 0) := by
  by_cases hc : (upsert (chave_cache texto st.modelo) vv st.cache).length % 10 = 0 <;>
    simp [gerar_embedding, hmiss, callProvider, hor, salvar_cache, hc]

theorem gerar_embedding_calls_of_miss (st : EmbState) (texto : String)
    (hmiss : st.cache.lookup (chave_cache texto st.modelo) = none) :
    (gerar_embedding st texto).2.calls = st.calls + 1 := by
  rcases hor : st.oracle with _ | ⟨r, rest⟩
  · simp [gerar_embedding, hmiss, callProvider, hor]
  · rcases r with _ | vecs
    · simp [gerar_embedding, hmiss, callProvider, hor]
    · rcases vecs with _ | ⟨vv, vs⟩
      · simp [gerar_embedding, hmiss, callProvider, hor]
      · by_cases hc : (upsert (chave_cache texto st.modelo) vv st.cache).length % 10 = 0 <;>
          simp [gerar_embedding, hmiss, callProvider, hor, salvar_cache, hc]

theorem batchSplitAux_lengths (st : EmbState) :
    ∀ (ts : List String) (i : Nat),
      (batchSplitAux st ts i).2.1.length = (batchSplitAux st ts i).2.2.length
  | [], _ => rfl
  | texto :: rest, i => by
    simp only [batchSplitAux]
    cases st.cache.lookup (chave_cache texto st.modelo) <;>
      simp [batchSplitAux_lengths st rest (i + 1)]

theorem foldl_cache_upsert_only_cache (l : List (String × Nat × Vec)) :
    ∀ s0 : EmbState,
      ((l.foldl (fun s p =>
        { s with cache := upsert (chave_cache p.1 s.modelo) p.2.2 s.cache }) s0).flushes
          = s0.flushes) ∧
      ((l.foldl (fun s p =>
        { s with cache := upsert (chave_cache p.1 s.modelo) p.2.2 s.cache }) s0).oracle
          = s0.oracle) ∧
      ((l.foldl (fun s p =>
        { s with cache := upsert (chave_cache p.1 s.modelo) p.2.2 s.cache }) s0).calls
          = s0.calls) := by
  induction l with
  | nil => intro s0; exact ⟨rfl, rfl, rfl⟩
  | cons p rest ih =>
    intro s0
    simpa using ih { s0 with cache := upsert (chave_cache p.1 s0.modelo) p.2.2 s0.cache }

/-- A fresh service whose provider fails once and then answers `[1]`. -/
def stC4 : EmbState :=
  { cache := [], index := none, id_para_documento := [], modelo := "m", dim := 1,
    oracle := [none, some [[1]]], calls := 0, flushes := 0 }

/-- C4 counterexample: when the provider fails on the first call, nothing is
cached, so the second call with the same text issues a second provider call
(two in total) and returns a different vector than the first. -/
theorem gerar_embedding_two_calls_two_provider_calls :
    (gerar_embedding (gerar_embedding stC4 "t").2 "t").2.calls = 2 ∧
    (gerar_embedding stC4 "t").1 ≠ (gerar_embedding (gerar_embedding stC4 "t").2 "t").1 := by
  constructor
  · rfl
  · decide

/-- C4 amended: when the first call hits the cache, or its provider call
succeeds with a non-empty response, two consecutive `gerar_embedding` calls
on the same text issue at most one provider call in total and return
bit-identical vectors. -/
theorem gerar_embedding_idempotent_on_success
    (st : EmbState) (texto : String)
    (h : (st.cache.lookup (chave_cache texto st.modelo)).isSome = true ∨
         ∃ vv vs rest, st.oracle = some (vv :: vs) :: rest) :
    (gerar_embedding (gerar_embedding st texto).2 texto).2.calls ≤ st.calls + 1 ∧
    (gerar_embedding (gerar_embedding st texto).2 texto).1
      = (gerar_embedding st texto).1 := by
  by_cases hm : (st.cache.lookup (chave_cache texto st.modelo)).isSome = true
  · obtain ⟨v, hv⟩ := Option.isSome_iff_exists.mp hm
    have h1 := gerar_embedding_hit st texto v hv
    constructor
    · simp [h1]
    · simp [h1]
  · have hmiss : st.cache.lookup (chave_cache texto st.modelo) = none := by
      cases hx : st.cache.lookup (chave_cache texto st.modelo)
      · rfl
      · rw [hx] at hm
        simp at hm
    rcases h with hL | ⟨vv, vs, rest, hor⟩
    · exact absurd hL hm
    · obtain ⟨hv1, hcache, hcalls, hmodelo, _⟩ :=
        gerar_embedding_miss_success st texto vv vs rest hmiss hor
      have hv2 : (gerar_embedding st texto).2.cache.lookup
          (chave_cache texto (gerar_embedding st texto).2.modelo) = some vv := by
        rw [hmodelo, hcache]
        exact lookup_upsert_self _ _ _
      have h2 := gerar_embedding_hit (gerar_embedding st texto).2 texto vv hv2
      rw [h2, hv1]
      exact ⟨by rw [hcalls], rfl⟩

/-- A fresh service whose provider answers `[2]` on the first call. -/
def stC4W : EmbState :=
  { cache := [], index := none, id_para_documento := [], modelo := "m", dim := 1,
    oracle := [some [[2]]], calls := 0, flushes := 0 }

/-- Witness for the amended C4. -/
theorem gerar_embedding_idempotent_on_success_witness :
    (gerar_embedding (gerar_embedding stC4W "t").2 "t").2.calls ≤ stC4W.calls + 1 ∧
    (gerar_embedding (gerar_embedding stC4W "t").2 "t").1
      = (gerar_embedding stC4W "t").1 :=
  gerar_embedding_idempotent_on_success stC4W "t" (Or.inr ⟨[2], [], [], rfl⟩)

/-- A fresh service whose provider answers `[5]` on the first call. -/
def stC8 : EmbState :=
  { cache := [], index := none, id_para_documento := [], modelo := "m", dim := 1,
    oracle := [some [[5]]], calls := 0, flushes := 0 }

/-- C8 counterexample: one `gerar_embeddings_batch` call with a single
uncached text flushes the cache immediately (`salvar_cache` runs
unconditionally after a successful batch), even though only one new entry —
not ten — was added. -/
theorem batch_flushes_after_every_successful_batch :
    (gerar_embeddings_batch stC8 ["t"]).2.flushes = stC8.flushes + 1 ∧
    (gerar_embeddings_batch stC8 ["t"]).2.cache.length = 1 ∧
    ¬(1 % 10 = 0) := by
  refine ⟨rfl, rfl, by decide⟩

/-- C8 amended: the single-text path `gerar_embedding` flushes exactly when
the cache size after insertion is divisible by 10, while the batch path
`gerar_embeddings_batch` flushes after every provider success that covered
at least one miss, regardless of cadence. -/
theorem cache_flush_cadence :
    (∀ (st : EmbState) (texto : String) (vv : Vec) (vs : List Vec)
        (rest : List (Option (List Vec))),
      st.cache.lookup (chave_cache texto st.modelo) = none →
      st.oracle = some (vv :: vs) :: rest →
      (gerar_embedding st texto).2.flushes = st.flushes
        + (if (upsert (chave_cache texto st.modelo) vv st.cache).length % 10 = 0
            then 1 else 0)) ∧
    (∀ (st : EmbState) (textos : List String) (vecs : List Vec)
        (rest : List (Option (List Vec))),
      (batchSplit st textos).2.1 ≠ [] →
      st.oracle = some vecs :: rest →
      vecs.length = (batchSplit st textos).2.1.length →
      (gerar_embeddings_batch st textos).2.flushes = st.flushes + 1) := by
  constructor
  · intro st texto vv vs rest hmiss hor
    exact (gerar_embedding_miss_success st texto vv vs rest hmiss hor).2.2.2.2
  · intro st textos vecs rest hne hor hlen
    have hidx : (batchSplit st textos).2.2.length = vecs.length := by
      rw [hlen]
      exact (batchSplitAux_lengths st textos 0).symm
    have hemp : (batchSplit st textos).2.1.isEmpty = false := by
      cases hx : (batchSplit st textos).2.1
      · exact absurd hx hne
      · rfl
    have hnotlt : ¬((batchSplit st textos).2.2.length < vecs.length) := by omega
    simp only [gerar_embeddings_batch, hemp, Bool.false_eq_true, if_false,
      callProvider, hor, hnotlt, salvar_cache]
    rw [(foldl_cache_upsert_only_cache _ _).1]

/-- A nine-entry cache one miss away from the ten-entry flush threshold. -/
def stC8W : EmbState :=
  { cache := [("a_m", [1]), ("b_m", [1]), ("c_m", [1]), ("d_m", [1]), ("e_m", [1]),
              ("f_m", [1]), ("g_m", [1]), ("h_m", [1]), ("j_m", [1])],
    index := none, id_para_documento := [], modelo := "m", dim := 1,
    oracle := [some [[5]]], calls := 0, flushes := 0 }

/-- Witness for the amended C8: the single path flushes on the 10th entry,
and the batch path flushes after a one-miss batch. -/
theorem cache_flush_cadence_witness :
    ((gerar_embedding stC8W "t").2.flushes = stC8W.flushes
      + (if (upsert (chave_cache "t" stC8W.modelo) [5] stC8W.cache).length % 10 = 0
          then 1 else 0)) ∧
    (gerar_embeddings_batch stC8 ["t"]).2.flushes = stC8.flushes + 1 :=
  ⟨cache_flush_cadence.1 stC8W "t" [5] [] [] rfl rfl,
   cache_flush_cadence.2 stC8 ["t"] [[5]] [] (by decide) rfl (by decide)⟩

/-- C9: a failed provider call caches nothing — the zero vector is returned
but the in-memory cache is bit-for-bit the state before the call, both on
the single-text path and on the batch path — so a repeat call with the same
text calls the provider again rather than serving a cached zero vector. -/
theorem provider_failure_caches_nothing :
    (∀ (st : EmbState) (texto : String) (rest : List (Option (List Vec))),
      st.cache.lookup (chave_cache texto st.modelo) = none →
      st.oracle = none :: rest →
      (gerar_embedding st texto).1 = zeros st.dim ∧
      (gerar_embedding st texto).2.cache = st.cache ∧
      (gerar_embedding (gerar_embedding st texto).2 texto).2.calls
        = (gerar_embedding st texto).2.calls + 1) ∧
    (∀ (st : EmbState) (textos : List String) (rest : List (Option (List Vec))),
      st.oracle = none :: rest →
      (gerar_embeddings_batch st textos).2.cache = st.cache) := by
  constructor
  · intro st texto rest hmiss hor
    have h1 := gerar_embedding_miss_failure st texto rest hmiss hor
    refine ⟨by rw [h1], by rw [h1], ?_⟩
    apply gerar_embedding_calls_of_miss
    rw [h1]
    exact hmiss
  · intro st textos rest hor
    by_cases hemp : (batchSplit st textos).2.1.isEmpty
    · simp [gerar_embeddings_batch, hemp]
    · simp [gerar_embeddings_batch, hemp, callProvider, hor]

/-- A fresh service whose provider always fails. -/
def stC9 : EmbState :=
  { cache := [], index := none, id_para_documento := [], modelo := "m", dim := 1,
    oracle := [none], calls := 0, flushes := 0 }

/-- Witness for C9 on a concrete failing provider. -/
theorem provider_failure_caches_nothing_witness :
    ((gerar_embedding stC9 "t").1 = zeros stC9.dim ∧
     (gerar_embedding stC9 "t").2.cache = stC9.cache ∧
     (gerar_embedding (gerar_embedding stC9 "t").2 "t").2.calls
       = (gerar_embedding stC9 "t").2.calls + 1) ∧
    (gerar_embeddings_batch stC9 ["t"]).2.cache = stC9.cache :=
  ⟨provider_failure_caches_nothing.1 stC9 "t" [] rfl rfl,
   provider_failure_caches_nothing.2 stC9 ["t"] [] rfl⟩

/-! ## Filtered search -/

theorem atende_filtro_nil (doc : Doc) : atende_filtro doc [] = true := rfl

theorem filter_branch_eq (doc : Doc) (filtro : List (String × String)) (v : Doc × ℚ) :
    (if filtro.isEmpty then some v
     else if atende_filtro doc filtro then some v else none)
    = (if atende_filtro doc filtro then some v else none) := by
  by_cases h : filtro.isEmpty
  · rw [List.isEmpty_iff] at h
    subst h
    simp [atende_filtro_nil]
  · simp [h]

theorem filterMap_filter_comm (mapu : List (Int × Doc))
    (filtro : List (String × String)) :
    ∀ res : List (Int × ℚ),
      res.filterMap (fun p =>
        if p.1 = -1 then none
        else
          match mapu.lookup p.1 with
          | none => none
          | some doc =>
            if atende_filtro doc filtro then some (doc, (1 : ℚ) - p.2 / 2) else none)
      = (res.filterMap (fun p =>
          if p.1 = -1 then none
          else
            match mapu.lookup p.1 with
            | none => none
            | some doc => some (doc, (1 : ℚ) - p.2 / 2))).filter
          (fun p => atende_filtro p.1 filtro)
  | [] => rfl
  | p :: rest => by
    simp only [List.filterMap_cons]
    by_cases h1 : p.1 = -1
    · simp only [h1, if_true, reduceIte]
      exact filterMap_filter_comm mapu filtro rest
    · simp only [h1, if_false, reduceIte]
      cases hl : mapu.lookup p.1 with
      | none => exact filterMap_filter_comm mapu filtro rest
      | some doc =>
        by_cases h2 : atende_filtro doc filtro
        · simp [h2, List.filter_cons, filterMap_filter_comm mapu filtro rest]
        · simp [h2, List.filter_cons, filterMap_filter_comm mapu filtro rest]

theorem atende_filtro_keys_present (doc : Doc) (filtro : List (String × String))
    (h : atende_filtro doc filtro = true) :
    filtro.all (fun f =>
      ((doc.attrs.lookup f.1).isSome || (doc.items.lookup f.1).isSome)) = true := by
  rw [List.all_eq_true]
  intro f hf
  rw [atende_filtro, List.all_eq_true] at h
  have hx := h f hf
  cases ha : doc.attrs.lookup f.1 with
  | some a => simp [ha]
  | none =>
    cases hi : doc.items.lookup f.1 with
    | some x => simp [ha, hi]
    | none => simp [ha, hi] at hx

/-- C7: a filtered search returns exactly the unfiltered (distance-ranked)
result list filtered by the code's predicate — filtering never re-ranks —
so every returned document satisfies every `(key, value)` pair of the
filter, and a document carrying a filter key on neither its attribute nor
its item surface is never returned. -/
theorem buscar_filtered_results (st : EmbState) (texto : String) (k : Nat)
    (filtro : List (String × String)) :
    (buscar_emb st texto k filtro).1
      = ((buscar_emb st texto k []).1).filter (fun p => atende_filtro p.1 filtro) ∧
    ((buscar_emb st texto k filtro).1.all
      (fun p => atende_filtro p.1 filtro)) = true ∧
    ((buscar_emb st texto k filtro).1.all (fun p => filtro.all (fun f =>
      ((p.1.attrs.lookup f.1).isSome || (p.1.items.lookup f.1).isSome)))) = true := by
  have hmain : (buscar_emb st texto k filtro).1
      = ((buscar_emb st texto k []).1).filter (fun p => atende_filtro p.1 filtro) := by
    cases hidx : st.index with
    | none => simp [buscar_emb, hidx]
    | some index =>
      by_cases hdim : (gerar_embedding st texto).1.length = index.dim
      · by_cases htr : index.is_trained = false
        · simp [buscar_emb, hidx, hdim, htr]
        · simp only [buscar_emb, hidx, hdim, ne_eq, not_true_eq_false, if_false, htr,
            List.isEmpty_nil, if_true, filter_branch_eq]
          exact filterMap_filter_comm _ filtro
            (searchTrained index (gerar_embedding st texto).1 k)
      · simp [buscar_emb, hidx, hdim]
  refine ⟨hmain, ?_, ?_⟩
  · rw [hmain, List.all_eq_true]
    intro x hx
    exact (List.mem_filter.mp hx).2
  · rw [hmain, List.all_eq_true]
    intro x hx
    exact atende_filtro_keys_present x.1 filtro (List.mem_filter.mp hx).2

end ContasLuz
